import Mathlib

/-!
Verification development for the javascriptCalendar repository.

The TypeScript sources are shallowly embedded: JavaScript numbers are
modelled by `JSNum` (NaN, the two infinities, and finite values as exact
rationals), JavaScript objects holding integer field values by association
lists or option-valued records, and exception-throwing methods by `Except`.
Every definition mirrors the corresponding source function; comments cite
the file and symbol being embedded.
-/

/-- Model of a JavaScript number: NaN, the infinities, or a finite value.
Finite values are exact rationals, which covers every value the repository
manipulates (integers, `Number.EPSILON` offsets, halves, ...). -/
inductive JSNum where
  | nan : JSNum
  | posInf : JSNum
  | negInf : JSNum
  | fin : ℚ → JSNum
deriving DecidableEq

namespace JSNum

/-- `Number.isFinite`. -/
def isFinite : JSNum → Bool
  | fin _ => true
  | _ => false

/-- `Number.isInteger`: finite and with no fractional part. -/
def isInteger : JSNum → Bool
  | fin q => q.den == 1
  | _ => false

/-- `Number.isSafeInteger`: an integer of magnitude at most `2^53 - 1`. -/
def isSafeInteger : JSNum → Bool
  | fin q => q.den == 1 && (-9007199254740991 ≤ q.num && q.num ≤ 9007199254740991)
  | _ => false

/-- JavaScript `<` on numbers: any comparison involving NaN is false. -/
def lt : JSNum → JSNum → Bool
  | nan, _ => false
  | _, nan => false
  | negInf, negInf => false
  | negInf, _ => true
  | _, negInf => false
  | posInf, _ => false
  | fin _, posInf => true
  | fin p, fin q => decide (p < q)

/-- JavaScript `<=` on numbers: any comparison involving NaN is false. -/
def le : JSNum → JSNum → Bool
  | nan, _ => false
  | _, nan => false
  | negInf, _ => true
  | _, negInf => false
  | _, posInf => true
  | posInf, _ => false
  | fin p, fin q => decide (p ≤ q)

/-- JavaScript `>` on numbers. -/
def gt (a b : JSNum) : Bool := lt b a

/-- JavaScript `>=` on numbers. -/
def ge (a b : JSNum) : Bool := le b a

end JSNum

/-- Embeds `ComparisonResult` (src/src/comparison.ts lines 11-41).  The
source objects expose `result` plus four lazily evaluated getters; the
getters are pure functions of the construction-time data, so they are
stored eagerly here, each computed by the exact formula of the branch of
`getComparisonResult` that builds the object.  The `exists` property is
named `existsRes` because `exists` is reserved in Lean. -/
structure ComparisonResult where
  result : JSNum
  existsRes : Bool
  isLesser : Bool
  isGreater : Bool
  isEqual : Bool
deriving DecidableEq

/-- `this.valueOf()` of a comparison result returns `this.result`. -/
def ComparisonResult.valueOf (r : ComparisonResult) : JSNum := r.result

/-- Embeds `getComparisonResult` (src/src/comparison.ts lines 49-93).
In the `Number.isInteger(result)` branch the getters are
`exists = !Number.isFinite(this.result)`,
`isLesser = this.exists && this.result < 0`,
`isGreater = this.exists && this.result > 0`,
`isEqual = this.exists && this.result === 0`;
otherwise the object stores NaN with all four getters false. -/
def getComparisonResult (result : JSNum) : ComparisonResult :=
  if result.isInteger then
    { result := result
      existsRes := !result.isFinite
      isLesser := !result.isFinite && JSNum.lt result (JSNum.fin 0)
      isGreater := !result.isFinite && JSNum.gt result (JSNum.fin 0)
      isEqual := !result.isFinite && (result == JSNum.fin 0) }
  else
    { result := JSNum.nan
      existsRes := false
      isLesser := false
      isGreater := false
      isEqual := false }

namespace DefaultComparator

/-- Embeds `DefaultComparator.compare` (src/src/comparison.ts lines 98-109),
restricted to numbers: `compared < comparee ? -1 : compared > comparee ? 1 : 0`. -/
def compare (compared comparee : JSNum) : ComparisonResult :=
  getComparisonResult
    (if JSNum.lt compared comparee then JSNum.fin (-1)
     else if JSNum.gt compared comparee then JSNum.fin 1
     else JSNum.fin 0)

end DefaultComparator

namespace ComparableInteger

/-- Embeds `ComparableNumber.compareTo` (src/src/comparison.ts lines 252-258)
as inherited by `ComparableInteger`, whose stored value is always an
integer and hence never NaN, so the call reduces to
`DefaultComparison.compare(this.valueOf(), other.valueOf())`. -/
def compareTo (a b : ℤ) : ComparisonResult :=
  DefaultComparator.compare (JSNum.fin (a : ℚ)) (JSNum.fin (b : ℚ))

end ComparableInteger

/-- Embeds the class `ValueRange<Type>` (src/unnamed/part_005 lines 7-49):
optional boundaries (undefined = unbounded) plus the two inclusivity
flags, stored exactly as the constructor stores them. -/
structure ValueRange (α : Type) where
  lowerBoundary : Option α
  upperBoundary : Option α
  includesLowerBoundary : Bool
  includesUpperBoundary : Bool
deriving DecidableEq

namespace ValueRange

variable {α : Type} (cmp : α → α → ComparisonResult)

/-- `hasLowerBoundary` getter (part_005 lines 70-72). -/
def hasLowerBoundary (r : ValueRange α) : Bool := r.lowerBoundary.isSome

/-- `hasUpperBoundary` getter (part_005 lines 77-79). -/
def hasUpperBoundary (r : ValueRange α) : Bool := r.upperBoundary.isSome

/-- Embeds `ValueRange.contains` (part_005 lines 56-65), literally:
`(lowerBoundary === undefined || lowerBoundary.compareTo(value).valueOf() >= (includesLowerBoundary ? 0 : 1)) &&
 (upperBoundary === undefined || upperBoundary.compareTo(value).valueOf() <= (includesUpperBoundary ? 0 : -1))`.
The element comparison `cmp` plays the role of `Type.compareTo`. -/
def contains (r : ValueRange α) (value : α) : Bool :=
  (match r.lowerBoundary with
   | none => true
   | some lb =>
       JSNum.ge (cmp lb value).valueOf
         (JSNum.fin (if r.includesLowerBoundary then 0 else 1))) &&
  (match r.upperBoundary with
   | none => true
   | some ub =>
       JSNum.le (cmp ub value).valueOf
         (JSNum.fin (if r.includesUpperBoundary then 0 else -1)))

/-- Embeds `ValueRange.expandUpperBoundary` (part_005 lines 174-182):
when an upper boundary exists and the argument is undefined or strictly
greater (per `isLesser` of the boundary-to-value comparison), a new range
with that argument as upper boundary is returned; otherwise `this`. -/
def expandUpperBoundary (r : ValueRange α) (value : Option α) : ValueRange α :=
  match r.upperBoundary with
  | some ub =>
    match value with
    | none => { r with upperBoundary := none }
    | some v =>
        if (cmp ub v).isLesser then { r with upperBoundary := some v } else r
  | none => r

/-- Embeds `ValueRange.expandLowerBoundary` (part_005 lines 190-198),
the mirror image of `expandUpperBoundary` using `isGreater`. -/
def expandLowerBoundary (r : ValueRange α) (value : Option α) : ValueRange α :=
  match r.lowerBoundary with
  | some lb =>
    match value with
    | none => { r with lowerBoundary := none }
    | some v =>
        if (cmp lb v).isGreater then { r with lowerBoundary := some v } else r
  | none => r

/-- Embeds `ValueRange.expand` (part_005 lines 205-229).  The source keeps
a mutable `result` initialised to `this`, possibly replaces it via the
boundary steps (setting it to `undefined` when an exclusive boundary
blocks the expansion), and finally throws when `result` is undefined.
Both comparisons are made against `this` (`r` here), matching the source;
the first step leaves the upper boundary untouched, so `res` in the second
step carries `r`'s upper boundary. -/
def expand (r : ValueRange α) (value : α) : Except String (ValueRange α) :=
  if r.contains cmp value then .ok r
  else
    let step1 : Option (ValueRange α) :=
      match r.lowerBoundary with
      | some lb =>
          if (cmp lb value).isGreater then
            if r.includesLowerBoundary then
              some (r.expandLowerBoundary cmp (some value))
            else none
          else some r
      | none => some r
    let step2 : Option (ValueRange α) :=
      match step1 with
      | none => none
      | some res =>
          match r.upperBoundary with
          | some ub =>
              if (cmp ub value).isLesser then
                if res.includesUpperBoundary then
                  some (res.expandUpperBoundary cmp (some value))
                else none
              else some res
          | none => some res
    match step2 with
    | some res => .ok res
    | none => .error "Cannot expand the boundary to include the value in the range due open boundary"

/-- `ValueRange.upperOpenEnded` (part_005 lines 238-243). -/
def upperOpenEnded (lowerBoundary upperBoundary : Option α) : ValueRange α :=
  ⟨lowerBoundary, upperBoundary, true, false⟩

/-- `ValueRange.lowerOpenEnded` (part_005 lines 251-256). -/
def lowerOpenEnded (lowerBoundary upperBoundary : Option α) : ValueRange α :=
  ⟨lowerBoundary, upperBoundary, false, true⟩

/-- `ValueRange.closedRange` (part_005 lines 264-269). -/
def closedRange (lowerBoundary upperBoundary : Option α) : ValueRange α :=
  ⟨lowerBoundary, upperBoundary, true, true⟩

/-- Embeds `ValueRange.compareTo` (part_005 lines 282-319): lower
boundaries first, inclusivity tie-break guarded by `result.isEqual`,
then upper boundaries with the infinity placeholders for missing ones. -/
def compareTo (a b : ValueRange α) : ComparisonResult :=
  match a.lowerBoundary, b.lowerBoundary with
  | some al, some bl =>
    let result := cmp al bl
    if result.isEqual then
      if a.includesLowerBoundary != b.includesLowerBoundary then
        getComparisonResult (JSNum.fin (if a.includesLowerBoundary then -1 else 1))
      else
        let result :=
          match a.upperBoundary, b.upperBoundary with
          | some au, some bu => cmp au bu
          | some _, none => getComparisonResult JSNum.negInf
          | none, _ => getComparisonResult JSNum.posInf
        if result.isEqual && (a.includesUpperBoundary != b.includesUpperBoundary) then
          getComparisonResult (JSNum.fin (if a.includesUpperBoundary then 1 else -1))
        else result
    else result
  | some _, none => getComparisonResult JSNum.posInf
  | none, _ => getComparisonResult JSNum.negInf

end ValueRange

/-- The repository instantiates `ValueRange` at `ComparableInteger`
(e.g. `TemporalValueRange` in src/unnamed/part_005's sibling temporal
module); this abbreviation fixes the element type accordingly. -/
abbrev IntRange := ValueRange ℤ

/-- The element comparison used throughout the calendar code:
`ComparableInteger.compareTo`. -/
abbrev cmpInt : ℤ → ℤ → ComparisonResult := ComparableInteger.compareTo

/-- Modelled from the spec's words (§4.1 / §8, range containment): a value
is in the range iff it is at-or-above an inclusive lower boundary
(strictly above an exclusive one) and at-or-below an inclusive upper
boundary (strictly below an exclusive one), an undefined side always
satisfying.  Used only to compare the source's `contains` against the
specified behaviour. -/
def containsSpec (r : IntRange) (v : ℤ) : Bool :=
  (match r.lowerBoundary with
   | none => true
   | some lb => if r.includesLowerBoundary then decide (lb ≤ v) else decide (lb < v)) &&
  (match r.upperBoundary with
   | none => true
   | some ub => if r.includesUpperBoundary then decide (v ≤ ub) else decide (v < ub))

/-- On any finite argument, the comparison-result object built by
`getComparisonResult` has `exists` false, since the integer branch
computes it as `!Number.isFinite(this.result)`. -/
lemma getComparisonResult_fin_existsRes (q : ℚ) :
    (getComparisonResult (JSNum.fin q)).existsRes = false := by
  unfold getComparisonResult
  split <;> rfl

/-- On any finite argument, `isLesser` is false (it is guarded by `exists`). -/
lemma getComparisonResult_fin_isLesser (q : ℚ) :
    (getComparisonResult (JSNum.fin q)).isLesser = false := by
  unfold getComparisonResult
  split <;> rfl

/-- On any finite argument, `isGreater` is false (it is guarded by `exists`). -/
lemma getComparisonResult_fin_isGreater (q : ℚ) :
    (getComparisonResult (JSNum.fin q)).isGreater = false := by
  unfold getComparisonResult
  split <;> rfl

/-- On any finite argument, `isEqual` is false (it is guarded by `exists`). -/
lemma getComparisonResult_fin_isEqual (q : ℚ) :
    (getComparisonResult (JSNum.fin q)).isEqual = false := by
  unfold getComparisonResult
  split <;> rfl

/-- `ComparableInteger.compareTo` never reports `isLesser`. -/
lemma cmpInt_isLesser (a b : ℤ) : (cmpInt a b).isLesser = false := by
  unfold cmpInt ComparableInteger.compareTo DefaultComparator.compare
  split
  · exact getComparisonResult_fin_isLesser _
  · split
    · exact getComparisonResult_fin_isLesser _
    · exact getComparisonResult_fin_isLesser _

/-- `ComparableInteger.compareTo` never reports `isGreater`. -/
lemma cmpInt_isGreater (a b : ℤ) : (cmpInt a b).isGreater = false := by
  unfold cmpInt ComparableInteger.compareTo DefaultComparator.compare
  split
  · exact getComparisonResult_fin_isGreater _
  · split
    · exact getComparisonResult_fin_isGreater _
    · exact getComparisonResult_fin_isGreater _

/-- `ComparableInteger.compareTo` never reports `isEqual`. -/
lemma cmpInt_isEqual (a b : ℤ) : (cmpInt a b).isEqual = false := by
  unfold cmpInt ComparableInteger.compareTo DefaultComparator.compare
  split
  · exact getComparisonResult_fin_isEqual _
  · split
    · exact getComparisonResult_fin_isEqual _
    · exact getComparisonResult_fin_isEqual _

/-- C1.  The claim states `R.contains(v)` is true iff `v` is not below the
lower boundary and not above the upper boundary (per inclusivity), with
undefined sides always satisfying.  The code compares
`boundary.compareTo(value)` against thresholds oriented the wrong way, so
on the closed range `[1, 31]` the interior value `5` is reported as *not*
contained, although the specified containment condition holds for it. -/
theorem C1_contains_at_failing_input :
    (ValueRange.closedRange (some 1) (some 31) : IntRange).contains cmpInt 5 = false ∧
    containsSpec (ValueRange.closedRange (some 1) (some 31)) 5 = true := by
  decide

/-- C3.  The claim states that comparing two mutually comparable values
yields a result with `exists` true and exactly one of
`isLesser`/`isEqual`/`isGreater` true.  The code computes `exists` as
`!Number.isFinite(this.result)`, so for the comparable inputs `1` and `1`
(comparison value `0`) `exists` and `isEqual` are both false. -/
theorem C3_comparisonResult_at_failing_input :
    (DefaultComparator.compare (JSNum.fin 1) (JSNum.fin 1)).existsRes = false ∧
    (DefaultComparator.compare (JSNum.fin 1) (JSNum.fin 1)).isEqual = false ∧
    (getComparisonResult (JSNum.fin 0)).existsRes = false := by
  decide

/-- C5.  The claim states `R.expand(v).contains(v)` holds whenever expand
returns without error.  On the closed range `[1, 31]` with `v = 40`,
`expand` returns the unchanged range without error (the guards
`isGreater`/`isLesser` are constantly false), yet the result does not
contain `40`. -/
theorem C5_expand_at_failing_input :
    (ValueRange.closedRange (some 1) (some 31) : IntRange).expand cmpInt 40
      = .ok (ValueRange.closedRange (some 1) (some 31)) ∧
    (ValueRange.closedRange (some 1) (some 31) : IntRange).contains cmpInt 40 = false :=
  ⟨rfl, by decide⟩

/-- C6.  The claim states `A.compareTo(A)` is an equal result and that on
a lower-boundary tie the upper boundaries decide the order.  For
`A = [1, 31]` the self-comparison's `isEqual` is false (its `exists` is
always false), and for `A = [1, 5]`, `B = [1, 10]` the comparison does
not report `isLesser`: the tie-breaking branches are unreachable because
`result.isEqual` never holds. -/
theorem C6_compareTo_at_failing_input :
    ((ValueRange.closedRange (some 1) (some 31) : IntRange).compareTo cmpInt
        (ValueRange.closedRange (some 1) (some 31))).isEqual = false ∧
    ((ValueRange.closedRange (some 1) (some 5) : IntRange).compareTo cmpInt
        (ValueRange.closedRange (some 1) (some 10))).isLesser = false := by
  decide

/-- Embeds `VagueValueRange<Type> extends ValueRange<ValueRange<Type>>`
(src/unnamed/part_004 lines 23-38, first version): the constructor just
forwards the envelope boundaries and flags to the `ValueRange`
constructor, performing no validation. -/
abbrev VagueValueRange := ValueRange IntRange

namespace VagueValueRange

/-- The argument type `Type | ValueRange<Type> | undefined` accepted by
`createBoundary` / `create` (part_004 lines 45-55). -/
inductive BoundaryArg where
  | undef : BoundaryArg
  | range : IntRange → BoundaryArg
  | scalar : ℤ → BoundaryArg

/-- Embeds `VagueValueRange.createBoundary` (part_004 lines 45-55):
undefined stays undefined, a range is kept, a scalar is wrapped into the
degenerate closed range `[v, v]`. -/
def createBoundary : BoundaryArg → Option IntRange
  | .undef => none
  | .range r => some r
  | .scalar v => some (ValueRange.closedRange (some v) (some v))

/-- A defined-or-undefined envelope forwarded unchanged, as when the
source passes `this.upperBoundary` (a `ValueRange | undefined`) to
`create`. -/
def ofOptionArg : Option IntRange → BoundaryArg
  | none => .undef
  | some r => .range r

/-- Embeds `VagueValueRange.create` (part_004 lines 65-77). -/
def create (lowerBoundary upperBoundary : BoundaryArg)
    (includeLowerBoundary includesUpperBoundary : Bool) : VagueValueRange :=
  ⟨createBoundary lowerBoundary, createBoundary upperBoundary,
   includeLowerBoundary, includesUpperBoundary⟩

/-- Embeds `VagueValueRange.getBoundaryMinimum` (part_004 lines 85-91). -/
def getBoundaryMinimum : Option IntRange → Option ℤ
  | some b => if b.hasLowerBoundary then b.lowerBoundary else none
  | none => none

/-- Embeds `VagueValueRange.getBoundaryMaximum` (part_004 lines 98-104). -/
def getBoundaryMaximum : Option IntRange → Option ℤ
  | some b => if b.hasUpperBoundary then b.upperBoundary else none
  | none => none

/-- Embeds the `minimalLowerBoundary` getter (part_004 lines 110-116). -/
def minimalLowerBoundary (v : VagueValueRange) : Option ℤ :=
  if v.hasLowerBoundary then getBoundaryMinimum v.lowerBoundary else none

/-- Embeds the `maximalLowerBoundary` getter (part_004 lines 121-127). -/
def maximalLowerBoundary (v : VagueValueRange) : Option ℤ :=
  if v.hasLowerBoundary then getBoundaryMaximum v.lowerBoundary else none

/-- Embeds the `minmalUpperBoundary` getter (sic, part_004 lines 132-139). -/
def minmalUpperBoundary (v : VagueValueRange) : Option ℤ :=
  if v.hasUpperBoundary then getBoundaryMinimum v.upperBoundary else none

/-- Embeds the `maximalUpperBoundary` getter (part_004 lines 144-150). -/
def maximalUpperBoundary (v : VagueValueRange) : Option ℤ :=
  if v.hasUpperBoundary then getBoundaryMaximum v.upperBoundary else none

/-- Embeds `VagueValueRange.expandLowerBoundaryValue` (part_004 lines
164-184): with a defined lower envelope, an undefined value drops the
envelope's own lower bound via `expandLowerBoundary`, a defined value goes
through `ValueRange.expand` (whose exception propagates); without a lower
envelope the range itself is returned. -/
def expandLowerBoundaryValue (v : VagueValueRange) (lowerBoundaryValue : Option ℤ) :
    Except String VagueValueRange :=
  match v.lowerBoundary with
  | some lb =>
    match lowerBoundaryValue with
    | none =>
        .ok (create (.range (lb.expandLowerBoundary cmpInt none))
          (ofOptionArg v.upperBoundary) v.includesLowerBoundary v.includesUpperBoundary)
    | some x =>
        match lb.expand cmpInt x with
        | .ok lb2 =>
            .ok (create (.range lb2) (ofOptionArg v.upperBoundary)
              v.includesLowerBoundary v.includesUpperBoundary)
        | .error e => .error e
  | none => .ok v

/-- Embeds `VagueValueRange.expandUpperBoundaryValue` (part_004 lines
192-212), the mirror image on the upper envelope. -/
def expandUpperBoundaryValue (v : VagueValueRange) (upperBoundaryValue : Option ℤ) :
    Except String VagueValueRange :=
  match v.upperBoundary with
  | some ub =>
    match upperBoundaryValue with
    | none =>
        .ok (create (ofOptionArg v.lowerBoundary)
          (.range (ub.expandUpperBoundary cmpInt none))
          v.includesLowerBoundary v.includesUpperBoundary)
    | some x =>
        match ub.expand cmpInt x with
        | .ok ub2 =>
            .ok (create (ofOptionArg v.lowerBoundary) (.range ub2)
              v.includesLowerBoundary v.includesUpperBoundary)
        | .error e => .error e
  | none => .ok v

/-- Embeds `VagueValueRange.expandLowerBoundary` (part_004 lines 223-238):
a range argument widens both bounds of the lower envelope, an undefined
argument makes the lower envelope undefined, and without a lower envelope
the range itself is returned. -/
def expandLowerBoundary (v : VagueValueRange) (lowerBoundary : Option IntRange) :
    VagueValueRange :=
  match v.lowerBoundary with
  | some lb =>
    match lowerBoundary with
    | some rng =>
        create (.range ((lb.expandLowerBoundary cmpInt rng.lowerBoundary).expandUpperBoundary
            cmpInt rng.upperBoundary))
          (ofOptionArg v.upperBoundary) v.includesLowerBoundary v.includesUpperBoundary
    | none =>
        create .undef (ofOptionArg v.upperBoundary)
          v.includesLowerBoundary v.includesUpperBoundary
  | none => v

/-- Embeds `VagueValueRange.expandUpperBoundary` (part_004 lines 240-254). -/
def expandUpperBoundary (v : VagueValueRange) (upperBoundary : Option IntRange) :
    VagueValueRange :=
  match v.upperBoundary with
  | some ub =>
    match upperBoundary with
    | some rng =>
        create (ofOptionArg v.lowerBoundary)
          (.range ((ub.expandLowerBoundary cmpInt rng.lowerBoundary).expandUpperBoundary
            cmpInt rng.upperBoundary))
          v.includesLowerBoundary v.includesUpperBoundary
    | none =>
        create (ofOptionArg v.lowerBoundary) .undef
          v.includesLowerBoundary v.includesUpperBoundary
  | none => v

/-- The envelope-ordering chain of the claim: whenever the four envelope
bounds are all defined, `minimalLowerBoundary ≤ maximalLowerBoundary ≤
minimalUpperBoundary ≤ maximalUpperBoundary`.  Formulated over the four
option-valued bounds; any undefined bound makes the condition vacuous. -/
def chainO : Option ℤ → Option ℤ → Option ℤ → Option ℤ → Bool
  | some a, some b, some c, some d => decide (a ≤ b ∧ b ≤ c ∧ c ≤ d)
  | _, _, _, _ => true

/-- The claimed invariant, evaluated on the four getters of a vague range. -/
def envelopeChain (v : VagueValueRange) : Bool :=
  chainO (minimalLowerBoundary v) (maximalLowerBoundary v)
    (minmalUpperBoundary v) (maximalUpperBoundary v)

/-- The same chain evaluated directly on a pair of optional envelopes, as
they would be supplied to the constructor. -/
def boundariesOrdered (lo up : Option IntRange) : Bool :=
  chainO (getBoundaryMinimum lo) (getBoundaryMaximum lo)
    (getBoundaryMinimum up) (getBoundaryMaximum up)

end VagueValueRange

/-- With the integer comparison, `ValueRange.expand` always returns its
receiver unchanged and never reaches the error: both boundary-moving
guards test `isGreater`/`isLesser`, which are constantly false. -/
lemma expand_eq_ok (r : IntRange) (v : ℤ) : r.expand cmpInt v = .ok r := by
  unfold ValueRange.expand
  split
  · rfl
  · cases h1 : r.lowerBoundary <;> cases h2 : r.upperBoundary <;>
      simp [h1, h2, cmpInt_isGreater, cmpInt_isLesser]

/-- With the integer comparison, expanding the lower boundary towards a
defined value is the identity (`isGreater` never holds). -/
lemma expandLowerBoundary_some_eq (r : IntRange) (x : ℤ) :
    r.expandLowerBoundary cmpInt (some x) = r := by
  unfold ValueRange.expandLowerBoundary
  cases h : r.lowerBoundary <;> simp [h, cmpInt_isGreater]

/-- With the integer comparison, expanding the upper boundary towards a
defined value is the identity (`isLesser` never holds). -/
lemma expandUpperBoundary_some_eq (r : IntRange) (x : ℤ) :
    r.expandUpperBoundary cmpInt (some x) = r := by
  unfold ValueRange.expandUpperBoundary
  cases h : r.upperBoundary <;> simp [h, cmpInt_isLesser]

/-- Expanding the lower boundary towards `undefined` leaves the range
lower-unbounded. -/
lemma expandLowerBoundary_none_lower (r : IntRange) :
    (r.expandLowerBoundary cmpInt none).lowerBoundary = none := by
  unfold ValueRange.expandLowerBoundary
  cases h : r.lowerBoundary <;> simp [h]

/-- Expanding the lower boundary never touches the upper boundary. -/
lemma expandLowerBoundary_none_upper (r : IntRange) :
    (r.expandLowerBoundary cmpInt none).upperBoundary = r.upperBoundary := by
  unfold ValueRange.expandLowerBoundary
  cases h : r.lowerBoundary <;> simp [h]

/-- Expanding the upper boundary towards `undefined` leaves the range
upper-unbounded. -/
lemma expandUpperBoundary_none_upper (r : IntRange) :
    (r.expandUpperBoundary cmpInt none).upperBoundary = none := by
  unfold ValueRange.expandUpperBoundary
  cases h : r.upperBoundary <;> simp [h]

/-- Expanding the upper boundary never touches the lower boundary. -/
lemma expandUpperBoundary_none_lower (r : IntRange) :
    (r.expandUpperBoundary cmpInt none).lowerBoundary = r.lowerBoundary := by
  unfold ValueRange.expandUpperBoundary
  cases h : r.upperBoundary <;> simp [h]

namespace VagueValueRange

/-- The chain holds outright as soon as one of its four bounds is
undefined. -/
lemma chainO_eq_true_of_none (a b c d : Option ℤ)
    (h : a = none ∨ b = none ∨ c = none ∨ d = none) :
    chainO a b c d = true := by
  cases a <;> cases b <;> cases c <;> cases d <;> first | rfl | simp at h

/-- Replacing any of the four bounds by `none` (or keeping it) preserves
the chain. -/
lemma chainO_mono (a b c d : Option ℤ) {a2 b2 c2 d2 : Option ℤ}
    (ha : a2 = a ∨ a2 = none) (hb : b2 = b ∨ b2 = none)
    (hc : c2 = c ∨ c2 = none) (hd : d2 = d ∨ d2 = none)
    (h : chainO a b c d = true) : chainO a2 b2 c2 d2 = true := by
  rcases ha with rfl | rfl <;> rcases hb with rfl | rfl <;>
    rcases hc with rfl | rfl <;> rcases hd with rfl | rfl <;>
    first
      | exact h
      | (apply chainO_eq_true_of_none; simp)

/-- The `minimalLowerBoundary` getter is `getBoundaryMinimum` of the lower
envelope. -/
lemma minimalLowerBoundary_eq (v : VagueValueRange) :
    minimalLowerBoundary v = getBoundaryMinimum v.lowerBoundary := by
  cases h : v.lowerBoundary <;>
    simp [minimalLowerBoundary, ValueRange.hasLowerBoundary, h, getBoundaryMinimum]

/-- The `maximalLowerBoundary` getter is `getBoundaryMaximum` of the lower
envelope. -/
lemma maximalLowerBoundary_eq (v : VagueValueRange) :
    maximalLowerBoundary v = getBoundaryMaximum v.lowerBoundary := by
  cases h : v.lowerBoundary <;>
    simp [maximalLowerBoundary, ValueRange.hasLowerBoundary, h, getBoundaryMaximum]

/-- The `minmalUpperBoundary` getter is `getBoundaryMinimum` of the upper
envelope. -/
lemma minmalUpperBoundary_eq (v : VagueValueRange) :
    minmalUpperBoundary v = getBoundaryMinimum v.upperBoundary := by
  cases h : v.upperBoundary <;>
    simp [minmalUpperBoundary, ValueRange.hasUpperBoundary, h, getBoundaryMinimum]

/-- The `maximalUpperBoundary` getter is `getBoundaryMaximum` of the upper
envelope. -/
lemma maximalUpperBoundary_eq (v : VagueValueRange) :
    maximalUpperBoundary v = getBoundaryMaximum v.upperBoundary := by
  cases h : v.upperBoundary <;>
    simp [maximalUpperBoundary, ValueRange.hasUpperBoundary, h, getBoundaryMaximum]

/-- The invariant of a vague range is the chain of its stored envelopes. -/
lemma envelopeChain_eq (v : VagueValueRange) :
    envelopeChain v = boundariesOrdered v.lowerBoundary v.upperBoundary := by
  unfold envelopeChain boundariesOrdered
  rw [minimalLowerBoundary_eq, maximalLowerBoundary_eq, minmalUpperBoundary_eq,
    maximalUpperBoundary_eq]

/-- `getBoundaryMinimum` of a defined envelope is its lower bound. -/
lemma getBoundaryMinimum_some (b : IntRange) :
    getBoundaryMinimum (some b) = b.lowerBoundary := by
  cases h : b.lowerBoundary <;>
    simp [getBoundaryMinimum, ValueRange.hasLowerBoundary, h]

/-- `getBoundaryMaximum` of a defined envelope is its upper bound. -/
lemma getBoundaryMaximum_some (b : IntRange) :
    getBoundaryMaximum (some b) = b.upperBoundary := by
  cases h : b.upperBoundary <;>
    simp [getBoundaryMaximum, ValueRange.hasUpperBoundary, h]

/-- `createBoundary` undoes `ofOptionArg`. -/
lemma createBoundary_ofOptionArg (o : Option IntRange) :
    createBoundary (ofOptionArg o) = o := by
  cases o <;> rfl

end VagueValueRange

namespace VagueValueRange

/-- Evaluation rules for `createBoundary` and the `create` projections. -/
lemma createBoundary_range (r : IntRange) : createBoundary (.range r) = some r := rfl

/-- `createBoundary` maps the undefined argument to the undefined envelope. -/
lemma createBoundary_undef : createBoundary .undef = none := rfl

/-- `getBoundaryMinimum` of the undefined envelope is undefined. -/
lemma getBoundaryMinimum_none : getBoundaryMinimum none = none := rfl

/-- `getBoundaryMaximum` of the undefined envelope is undefined. -/
lemma getBoundaryMaximum_none : getBoundaryMaximum none = none := rfl

/-- The lower envelope stored by `create`. -/
lemma create_lowerBoundary (lb ub : BoundaryArg) (il iu : Bool) :
    (create lb ub il iu).lowerBoundary = createBoundary lb := rfl

/-- The upper envelope stored by `create`. -/
lemma create_upperBoundary (lb ub : BoundaryArg) (il iu : Bool) :
    (create lb ub il iu).upperBoundary = createBoundary ub := rfl

/-- The invariant of a range built by `create` is the chain of the
wrapped argument envelopes. -/
lemma envelopeChain_create (lb ub : BoundaryArg) (il iu : Bool) :
    envelopeChain (create lb ub il iu)
      = boundariesOrdered (createBoundary lb) (createBoundary ub) := by
  rw [envelopeChain_eq]; rfl

/-- The lower bound of an envelope widened on both sides is the original
lower bound or has been dropped to `undefined`. -/
lemma combo_lowerBoundary (r : IntRange) (a b : Option ℤ) :
    ((r.expandLowerBoundary cmpInt a).expandUpperBoundary cmpInt b).lowerBoundary
        = r.lowerBoundary ∨
    ((r.expandLowerBoundary cmpInt a).expandUpperBoundary cmpInt b).lowerBoundary
        = none := by
  cases a <;> cases b <;>
    simp [expandLowerBoundary_some_eq, expandUpperBoundary_some_eq,
      expandLowerBoundary_none_lower, expandUpperBoundary_none_lower]

/-- The upper bound of an envelope widened on both sides is the original
upper bound or has been dropped to `undefined`. -/
lemma combo_upperBoundary (r : IntRange) (a b : Option ℤ) :
    ((r.expandLowerBoundary cmpInt a).expandUpperBoundary cmpInt b).upperBoundary
        = r.upperBoundary ∨
    ((r.expandLowerBoundary cmpInt a).expandUpperBoundary cmpInt b).upperBoundary
        = none := by
  cases a <;> cases b <;>
    simp [expandLowerBoundary_some_eq, expandUpperBoundary_some_eq,
      expandLowerBoundary_none_upper, expandUpperBoundary_none_upper]

/-- The constructor stores the envelopes unvalidated, so the invariant of
the constructed range is exactly the ordering of the supplied envelopes. -/
lemma mk_chain (lo up : Option IntRange) (il iu : Bool)
    (h : boundariesOrdered lo up = true) :
    envelopeChain (⟨lo, up, il, iu⟩ : VagueValueRange) = true := by
  rw [envelopeChain_eq]; exact h

/-- Same statement through `create`, whose `createBoundary` wrapping is
the only processing applied to the arguments. -/
lemma create_chain (lb ub : BoundaryArg) (il iu : Bool)
    (h : boundariesOrdered (createBoundary lb) (createBoundary ub) = true) :
    envelopeChain (create lb ub il iu) = true := by
  rw [envelopeChain_create]; exact h

/-- `expandLowerBoundaryValue` preserves the envelope-ordering invariant. -/
lemma expandLowerBoundaryValue_chain (v : VagueValueRange) (w : Option ℤ)
    (v2 : VagueValueRange) (h : envelopeChain v = true)
    (hok : expandLowerBoundaryValue v w = .ok v2) :
    envelopeChain v2 = true := by
  rcases v with ⟨lo, up, il, iu⟩
  cases lo with
  | none =>
      simp only [expandLowerBoundaryValue, Except.ok.injEq] at hok
      rw [← hok]; exact h
  | some lb =>
      cases w with
      | none =>
          simp only [expandLowerBoundaryValue, Except.ok.injEq] at hok
          rw [← hok]
          simp only [envelopeChain_create, boundariesOrdered, createBoundary_range,
            getBoundaryMinimum_some, expandLowerBoundary_none_lower]
          exact chainO_eq_true_of_none _ _ _ _ (Or.inl rfl)
      | some x =>
          simp only [expandLowerBoundaryValue, expand_eq_ok, Except.ok.injEq] at hok
          rw [← hok]
          simp only [envelopeChain_create, boundariesOrdered, createBoundary_range,
            createBoundary_ofOptionArg, getBoundaryMinimum_some, getBoundaryMaximum_some]
          simp only [envelopeChain_eq, boundariesOrdered, getBoundaryMinimum_some,
            getBoundaryMaximum_some] at h
          exact h

/-- `expandUpperBoundaryValue` preserves the envelope-ordering invariant. -/
lemma expandUpperBoundaryValue_chain (v : VagueValueRange) (w : Option ℤ)
    (v2 : VagueValueRange) (h : envelopeChain v = true)
    (hok : expandUpperBoundaryValue v w = .ok v2) :
    envelopeChain v2 = true := by
  rcases v with ⟨lo, up, il, iu⟩
  cases up with
  | none =>
      simp only [expandUpperBoundaryValue, Except.ok.injEq] at hok
      rw [← hok]; exact h
  | some ub =>
      cases w with
      | none =>
          simp only [expandUpperBoundaryValue, Except.ok.injEq] at hok
          rw [← hok]
          simp only [envelopeChain_create, boundariesOrdered, createBoundary_range,
            getBoundaryMaximum_some, expandUpperBoundary_none_upper]
          exact chainO_eq_true_of_none _ _ _ _ (Or.inr (Or.inr (Or.inr rfl)))
      | some x =>
          simp only [expandUpperBoundaryValue, expand_eq_ok, Except.ok.injEq] at hok
          rw [← hok]
          simp only [envelopeChain_create, boundariesOrdered, createBoundary_range,
            createBoundary_ofOptionArg, getBoundaryMinimum_some, getBoundaryMaximum_some]
          simp only [envelopeChain_eq, boundariesOrdered, getBoundaryMinimum_some,
            getBoundaryMaximum_some] at h
          exact h

/-- The range-argument `expandLowerBoundary` preserves the envelope-ordering
invariant. -/
lemma expandLowerBoundary_chain (v : VagueValueRange) (w : Option IntRange)
    (h : envelopeChain v = true) :
    envelopeChain (expandLowerBoundary v w) = true := by
  rcases v with ⟨lo, up, il, iu⟩
  cases lo with
  | none => exact h
  | some lb =>
      cases w with
      | none =>
          show envelopeChain (create .undef (ofOptionArg up) il iu) = true
          simp only [envelopeChain_create, boundariesOrdered, createBoundary_undef,
            getBoundaryMinimum_none]
          exact chainO_eq_true_of_none _ _ _ _ (Or.inl rfl)
      | some rng =>
          show envelopeChain (create
            (.range ((lb.expandLowerBoundary cmpInt rng.lowerBoundary).expandUpperBoundary
              cmpInt rng.upperBoundary))
            (ofOptionArg up) il iu) = true
          simp only [envelopeChain_create, boundariesOrdered, createBoundary_range,
            createBoundary_ofOptionArg, getBoundaryMinimum_some, getBoundaryMaximum_some]
          simp only [envelopeChain_eq, boundariesOrdered, getBoundaryMinimum_some,
            getBoundaryMaximum_some] at h
          exact chainO_mono lb.lowerBoundary lb.upperBoundary
            (getBoundaryMinimum up) (getBoundaryMaximum up)
            (combo_lowerBoundary lb rng.lowerBoundary rng.upperBoundary)
            (combo_upperBoundary lb rng.lowerBoundary rng.upperBoundary)
            (Or.inl rfl) (Or.inl rfl) h

/-- The range-argument `expandUpperBoundary` preserves the envelope-ordering
invariant. -/
lemma expandUpperBoundary_chain (v : VagueValueRange) (w : Option IntRange)
    (h : envelopeChain v = true) :
    envelopeChain (expandUpperBoundary v w) = true := by
  rcases v with ⟨lo, up, il, iu⟩
  cases up with
  | none => exact h
  | some ub =>
      cases w with
      | none =>
          show envelopeChain (create (ofOptionArg lo) .undef il iu) = true
          simp only [envelopeChain_create, boundariesOrdered, createBoundary_undef,
            getBoundaryMinimum_none]
          exact chainO_eq_true_of_none _ _ _ _ (Or.inr (Or.inr (Or.inl rfl)))
      | some rng =>
          show envelopeChain (create (ofOptionArg lo)
            (.range ((ub.expandLowerBoundary cmpInt rng.lowerBoundary).expandUpperBoundary
              cmpInt rng.upperBoundary)) il iu) = true
          simp only [envelopeChain_create, boundariesOrdered, createBoundary_range,
            createBoundary_ofOptionArg, getBoundaryMinimum_some, getBoundaryMaximum_some]
          simp only [envelopeChain_eq, boundariesOrdered, getBoundaryMinimum_some,
            getBoundaryMaximum_some] at h
          exact chainO_mono (getBoundaryMinimum lo) (getBoundaryMaximum lo)
            ub.lowerBoundary ub.upperBoundary
            (Or.inl rfl) (Or.inl rfl)
            (combo_lowerBoundary ub rng.lowerBoundary rng.upperBoundary)
            (combo_upperBoundary ub rng.lowerBoundary rng.upperBoundary) h

end VagueValueRange

/-- A vague range used to exhibit expansion preservation in the C7
witness: lower envelope `[1, 2]`, upper envelope `[3, 4]`, both inclusive. -/
def vagueWitnessRange : VagueValueRange :=
  ⟨some (ValueRange.closedRange (some 1) (some 2)),
   some (ValueRange.closedRange (some 3) (some 4)), true, true⟩

/-- C7.  The claim states that every constructed VagueValueRange satisfies
`minimalLowerBoundary ≤ maximalLowerBoundary ≤ minimalUpperBoundary ≤
maximalUpperBoundary` whenever all four are defined.  The constructor
validates nothing: constructing with lower envelope `[10, 20]` and upper
envelope `[1, 5]` gives a range whose four bounds are all defined yet
violate the chain (`20 ≤ 1` fails). -/
theorem C7_counterexample :
    VagueValueRange.minimalLowerBoundary
        (⟨some (ValueRange.closedRange (some 10) (some 20)),
          some (ValueRange.closedRange (some 1) (some 5)), true, true⟩ :
          VagueValueRange) = some 10 ∧
    VagueValueRange.maximalLowerBoundary
        (⟨some (ValueRange.closedRange (some 10) (some 20)),
          some (ValueRange.closedRange (some 1) (some 5)), true, true⟩ :
          VagueValueRange) = some 20 ∧
    VagueValueRange.minmalUpperBoundary
        (⟨some (ValueRange.closedRange (some 10) (some 20)),
          some (ValueRange.closedRange (some 1) (some 5)), true, true⟩ :
          VagueValueRange) = some 1 ∧
    VagueValueRange.maximalUpperBoundary
        (⟨some (ValueRange.closedRange (some 10) (some 20)),
          some (ValueRange.closedRange (some 1) (some 5)), true, true⟩ :
          VagueValueRange) = some 5 ∧
    VagueValueRange.envelopeChain
        (⟨some (ValueRange.closedRange (some 10) (some 20)),
          some (ValueRange.closedRange (some 1) (some 5)), true, true⟩ :
          VagueValueRange) = false := by
  decide

/-- C7 (amended).  The constructor and `create` store the supplied
boundary envelopes without validation, so the envelope-ordering invariant
holds for a constructed VagueValueRange exactly when the supplied
envelopes already satisfy it; when they do, the four getters satisfy
`minimalLowerBoundary ≤ maximalLowerBoundary ≤ minimalUpperBoundary ≤
maximalUpperBoundary`, and each of the four expansion operations
preserves this invariant. -/
theorem C7_vague_envelope_invariant_amended :
    (∀ (lo up : Option IntRange) (il iu : Bool),
        VagueValueRange.boundariesOrdered lo up = true →
        VagueValueRange.envelopeChain (⟨lo, up, il, iu⟩ : VagueValueRange) = true) ∧
    (∀ (lb ub : VagueValueRange.BoundaryArg) (il iu : Bool),
        VagueValueRange.boundariesOrdered (VagueValueRange.createBoundary lb)
          (VagueValueRange.createBoundary ub) = true →
        VagueValueRange.envelopeChain (VagueValueRange.create lb ub il iu) = true) ∧
    (∀ (v : VagueValueRange) (w : Option ℤ) (v2 : VagueValueRange),
        VagueValueRange.envelopeChain v = true →
        VagueValueRange.expandLowerBoundaryValue v w = .ok v2 →
        VagueValueRange.envelopeChain v2 = true) ∧
    (∀ (v : VagueValueRange) (w : Option ℤ) (v2 : VagueValueRange),
        VagueValueRange.envelopeChain v = true →
        VagueValueRange.expandUpperBoundaryValue v w = .ok v2 →
        VagueValueRange.envelopeChain v2 = true) ∧
    (∀ (v : VagueValueRange) (w : Option IntRange),
        VagueValueRange.envelopeChain v = true →
        VagueValueRange.envelopeChain (VagueValueRange.expandLowerBoundary v w) = true) ∧
    (∀ (v : VagueValueRange) (w : Option IntRange),
        VagueValueRange.envelopeChain v = true →
        VagueValueRange.envelopeChain (VagueValueRange.expandUpperBoundary v w) = true) :=
  ⟨VagueValueRange.mk_chain, VagueValueRange.create_chain,
   VagueValueRange.expandLowerBoundaryValue_chain,
   VagueValueRange.expandUpperBoundaryValue_chain,
   VagueValueRange.expandLowerBoundary_chain,
   VagueValueRange.expandUpperBoundary_chain⟩

/-- Witness for the amended C7 theorem: each conjunct applied at a
concrete vague range with ordered envelopes. -/
theorem C7_amended_witness :
    VagueValueRange.envelopeChain vagueWitnessRange = true ∧
    VagueValueRange.envelopeChain
      (VagueValueRange.create (.scalar 1) (.scalar 5) true true) = true ∧
    VagueValueRange.envelopeChain vagueWitnessRange = true ∧
    VagueValueRange.envelopeChain vagueWitnessRange = true ∧
    VagueValueRange.envelopeChain
      (VagueValueRange.expandLowerBoundary vagueWitnessRange
        (some (ValueRange.closedRange (some 0) (some 2)))) = true ∧
    VagueValueRange.envelopeChain
      (VagueValueRange.expandUpperBoundary vagueWitnessRange
        (some (ValueRange.closedRange (some 3) (some 9)))) = true :=
  ⟨C7_vague_envelope_invariant_amended.1
      (some (ValueRange.closedRange (some 1) (some 2)))
      (some (ValueRange.closedRange (some 3) (some 4))) true true (by decide),
   C7_vague_envelope_invariant_amended.2.1 (.scalar 1) (.scalar 5) true true (by decide),
   C7_vague_envelope_invariant_amended.2.2.1 vagueWitnessRange (some 0)
      vagueWitnessRange (by decide) rfl,
   C7_vague_envelope_invariant_amended.2.2.2.1 vagueWitnessRange (some 9)
      vagueWitnessRange (by decide) rfl,
   C7_vague_envelope_invariant_amended.2.2.2.2.1 vagueWitnessRange
      (some (ValueRange.closedRange (some 0) (some 2))) (by decide),
   C7_vague_envelope_invariant_amended.2.2.2.2.2 vagueWitnessRange
      (some (ValueRange.closedRange (some 3) (some 9))) (by decide)⟩

namespace Definitions

/-- The generic fields of `Definitions` (src/src/Definitions.ts): the
union `GenericField` of `BaseFields.day`, `DerivedFields.week`,
`DerivedFields.month`, `DerivedFields.quarter`, `BaseFields.year` and
`DerivedFields.era`. -/
inductive GenericField where
  | day | week | month | quarter | year | era
deriving DecidableEq

/-- Embeds `Definitions.TemporalInstance`
(`Partial<{[Property in GenericField]: Integer}>`, Definitions.ts lines
171-173): an optional integer value per generic field.  The JavaScript
`key in fields` test is `Option.isSome` of the corresponding field. -/
structure TemporalInstance where
  day : Option ℤ
  week : Option ℤ
  month : Option ℤ
  quarter : Option ℤ
  year : Option ℤ
  era : Option ℤ

/-- Presence of a generic field in the instance (`baseField in fields`). -/
def hasGenericField (fields : TemporalInstance) : GenericField → Bool
  | .day => fields.day.isSome
  | .week => fields.week.isSome
  | .month => fields.month.isSome
  | .quarter => fields.quarter.isSome
  | .year => fields.year.isSome
  | .era => fields.era.isSome

/-- Embeds `Definitions.getField` (src/src/Definitions.ts lines 182-233):
returns undefined when the base field is absent, then switches on the
base field, checking companion presence in source order and returning the
enum string value of the resolved field. -/
def getField (fields : TemporalInstance) (baseField : GenericField) : Option String :=
  if !hasGenericField fields baseField then
    none
  else
    match baseField with
    | .day =>
        if fields.week.isSome then some "dayOfWeek"
        else if fields.month.isSome then some "dayOfMonth"
        else if fields.year.isSome then some "dayOfYear"
        else none
    | .year =>
        if fields.era.isSome then some "yearOfEra"
        else some "canonicalYear"
    | .week =>
        if fields.month.isSome then some "weekOfMonth"
        else if fields.year.isSome then some "weekOfYear"
        else none
    | .month =>
        if fields.quarter.isSome then some "monthOfQuarter"
        else if fields.year.isSome then some "monthOfYear"
        else none
    | .quarter =>
        if fields.year.isSome then some "quarterOfYear"
        else none
    | .era => some "era"

end Definitions

/-- Modelled from the spec's words: the field-presence priority table of
§6, row by row, with the companion conditions written as the table lists
them (`month (no week)`, `year (no month, no week)`, ...); the base field
itself absent resolves to undefined. -/
def specFieldTable (fields : Definitions.TemporalInstance)
    (baseField : Definitions.GenericField) : Option String :=
  if Definitions.hasGenericField fields baseField then
    match baseField with
    | .day =>
        if fields.week.isSome then some "dayOfWeek"
        else if fields.month.isSome && !fields.week.isSome then some "dayOfMonth"
        else if fields.year.isSome && !fields.month.isSome && !fields.week.isSome then
          some "dayOfYear"
        else none
    | .year =>
        if fields.era.isSome then some "yearOfEra" else some "canonicalYear"
    | .month =>
        if fields.quarter.isSome then some "monthOfQuarter"
        else if fields.year.isSome && !fields.quarter.isSome then some "monthOfYear"
        else none
    | .quarter =>
        if fields.year.isSome then some "quarterOfYear" else none
    | .week =>
        if fields.month.isSome then some "weekOfMonth"
        else if fields.year.isSome && !fields.month.isSome then some "weekOfYear"
        else none
    | .era => some "era"
  else none

/-- C8.  `Definitions.getField` implements exactly the fixed
field-presence priority table of the spec: for every field bag and base
field, the switch over companion presence returns precisely the table's
resolved field, and an absent base field resolves to undefined. -/
theorem C8_getField_matches_table (fields : Definitions.TemporalInstance)
    (baseField : Definitions.GenericField) :
    Definitions.getField fields baseField = specFieldTable fields baseField := by
  rcases fields with ⟨d, w, m, q, y, e⟩
  cases baseField <;> cases d <;> cases w <;> cases m <;> cases q <;> cases y <;>
    cases e <;> rfl

namespace ISOCalendar

/-- Embeds `ISOCalendar.leapYear` (src/src/index.ts lines 415-422):
`Number.isInteger(yearVal) && yearVal % 4 === 0 && (yearVal % 100 !== 0 || yearVal % 400 === 0)`.
The remainders use JavaScript `%`, the truncated remainder (`Int.tmod`);
they are evaluated only after the `Number.isInteger` conjunct
short-circuits, which the inner match reflects: a non-integer value
returns false without taking any remainder. -/
def leapYear (year : JSNum) : Bool :=
  year.isInteger &&
    match year with
    | .fin q =>
        (q.num.tmod 4 == 0) && (!(q.num.tmod 100 == 0) || (q.num.tmod 400 == 0))
    | _ => false

end ISOCalendar

/-- C9.  `ISOCalendar.leapYear(year)` returns true iff the argument is an
integer divisible by 4 that is not divisible by 100 unless divisible by
400 (the Gregorian rule); every non-integer input (fractional, infinite
or NaN) yields false, with no error raised (the function is total). -/
theorem C9_leapYear_gregorian (year : JSNum) :
    ISOCalendar.leapYear year = true ↔
      ∃ k : ℤ, year = JSNum.fin (k : ℚ) ∧ 4 ∣ k ∧ (¬(100 ∣ k) ∨ 400 ∣ k) := by
  cases year with
  | nan => simp [ISOCalendar.leapYear, JSNum.isInteger]
  | posInf => simp [ISOCalendar.leapYear, JSNum.isInteger]
  | negInf => simp [ISOCalendar.leapYear, JSNum.isInteger]
  | fin q =>
      simp only [ISOCalendar.leapYear, JSNum.isInteger, Bool.and_eq_true,
        beq_iff_eq, Bool.or_eq_true, Bool.not_eq_true', JSNum.fin.injEq]
      constructor
      · rintro ⟨hden, h4, h100⟩
        refine ⟨q.num, ((Rat.den_eq_one_iff q).mp hden).symm, ?_, ?_⟩
        · exact Int.dvd_of_tmod_eq_zero h4
        · rcases h100 with h | h
          · exact Or.inl fun hd => by
              rw [Int.dvd_iff_tmod_eq_zero] at hd
              rw [hd] at h
              exact absurd h (by simp)
          · exact Or.inr (Int.dvd_of_tmod_eq_zero h)
      · rintro ⟨k, hk, h4, h100⟩
        subst hk
        rw [Rat.num_intCast] at *
        refine ⟨Rat.den_intCast k, Int.tmod_eq_zero_of_dvd h4, ?_⟩
        rcases h100 with h | h
        · refine Or.inl ?_
          by_contra hc
          simp only [Bool.not_eq_false] at hc
          exact h (Int.dvd_of_tmod_eq_zero (by simpa using hc))
        · exact Or.inr (Int.tmod_eq_zero_of_dvd h)

/-- Embeds the gatekeeper `isInteger` (src/src/comparison.ts lines
212-214): `Number.isSafeInteger(value)`. -/
def isIntegerGate (value : JSNum) : Bool := value.isSafeInteger

namespace ComparableInteger

/-- Embeds the `ComparableInteger` constructor (src/src/comparison.ts
lines 288-294): a safe integer is stored (as its integer value),
otherwise a RangeError is thrown.  A non-finite argument fails the
`isInteger` gate, so only the finite branch can succeed. -/
def make (value : JSNum) : Except String ℤ :=
  match value with
  | .fin q =>
      if isIntegerGate (.fin q) then .ok q.num
      else .error "Cannot create comaprable integer from non-safe integer"
  | _ => .error "Cannot create comaprable integer from non-safe integer"

/-- Embeds the `successor` getter (comparison.ts lines 297-302): below
`Number.MAX_SAFE_INTEGER` it constructs `new ComparableInteger(value + 1)`
(whose constructor could in principle throw), otherwise `undefined`. -/
def successor (value : ℤ) : Except String (Option ℤ) :=
  if value < 9007199254740991 then
    (make (.fin ((value + 1 : ℤ) : ℚ))).map some
  else .ok none

/-- Embeds the `predecessor` getter (comparison.ts lines 304-309). -/
def predecessor (value : ℤ) : Except String (Option ℤ) :=
  if value > -9007199254740991 then
    (make (.fin ((value - 1 : ℤ) : ℚ))).map some
  else .ok none

end ComparableInteger

/-- C10.  The `ComparableInteger` constructor succeeds exactly on safe
integers (throwing RangeError on every fractional, out-of-range, infinite
or NaN input); a constructed value stores that integer, and `successor` /
`predecessor` return the adjacent integer without error except exactly at
`Number.MAX_SAFE_INTEGER` / `Number.MIN_SAFE_INTEGER`, where they return
undefined. -/
theorem C10_comparableInteger_safe (v : JSNum) :
    match ComparableInteger.make v with
    | .ok k =>
        v.isSafeInteger = true ∧ v = JSNum.fin (k : ℚ) ∧
        ComparableInteger.successor k
          = .ok (if k < 9007199254740991 then some (k + 1) else none) ∧
        ComparableInteger.predecessor k
          = .ok (if -9007199254740991 < k then some (k - 1) else none)
    | .error _ => v.isSafeInteger = false := by
  cases v with
  | nan => rfl
  | posInf => rfl
  | negInf => rfl
  | fin q =>
      by_cases hg : isIntegerGate (.fin q) = true
      · have hden : q.den = 1 := by
          have h := hg
          simp only [isIntegerGate, JSNum.isSafeInteger, Bool.and_eq_true,
            beq_iff_eq] at h
          exact h.1
        have hbounds : -9007199254740991 ≤ q.num ∧ q.num ≤ 9007199254740991 := by
          have h := hg
          simp only [isIntegerGate, JSNum.isSafeInteger, Bool.and_eq_true,
            beq_iff_eq, decide_eq_true_eq] at h
          exact h.2
        have hmk : ComparableInteger.make (.fin q) = .ok q.num := by
          simp [ComparableInteger.make, hg]
        rw [hmk]
        refine ⟨hg, congrArg JSNum.fin ((Rat.den_eq_one_iff q).mp hden).symm, ?_, ?_⟩
        · unfold ComparableInteger.successor
          split
          · rename_i hlt
            have hcond : isIntegerGate (.fin ((q.num + 1 : ℤ) : ℚ)) = true := by
              simp only [isIntegerGate, JSNum.isSafeInteger, Rat.den_intCast,
                Rat.num_intCast, Bool.and_eq_true, beq_iff_eq, decide_eq_true_eq,
                true_and]
              omega
            have hmk2 : ComparableInteger.make (.fin ((q.num + 1 : ℤ) : ℚ))
                = .ok (q.num + 1) := by
              simp only [ComparableInteger.make, hcond, eq_self_iff_true, if_true,
                Rat.num_intCast]
            rw [hmk2]
            rfl
          · rfl
        · unfold ComparableInteger.predecessor
          split
          · rename_i hlt
            have hcond : isIntegerGate (.fin ((q.num - 1 : ℤ) : ℚ)) = true := by
              simp only [isIntegerGate, JSNum.isSafeInteger, Rat.den_intCast,
                Rat.num_intCast, Bool.and_eq_true, beq_iff_eq, decide_eq_true_eq,
                true_and]
              omega
            have hmk2 : ComparableInteger.make (.fin ((q.num - 1 : ℤ) : ℚ))
                = .ok (q.num - 1) := by
              simp only [ComparableInteger.make, hcond, eq_self_iff_true, if_true,
                Rat.num_intCast]
            rw [hmk2]
            rfl
          · rfl
      · have hmk : ComparableInteger.make (.fin q)
            = .error "Cannot create comaprable integer from non-safe integer" := by
          simp [ComparableInteger.make, hg]
        rw [hmk]
        simpa [isIntegerGate] using hg

/-- The error taxonomy of src/src/exceptions.ts plus the plain `Error`:
used as the exception type of the calendar methods. -/
inductive CalendarErr where
  | calendarException (message : String)
  | unsupportedFieldException (field : String)
  | invalidFieldValue (message : String) (value : ℤ)
  | rangeError (message : String)
  | jsError (message : String)
deriving DecidableEq

/-- The three concrete calendar-instance shapes of src/src/calendar.ts
(`DateInstance`, `YearAndMonthInstance`, `YearInstance`), each carrying
the field record its constructor received. -/
inductive CalendarInstanceShape where
  | date (fieldValues : List (String × ℤ))
  | yearAndMonth (fieldValues : List (String × ℤ))
  | year (fieldValues : List (String × ℤ))
deriving DecidableEq

namespace Calendar

/-- An entry of the `fieldStruct` argument of `composeAllowedFields`
(src/src/calendar.ts lines 381-399): a single field name or a list of
alternative field names (the nested-array case is not used by any caller). -/
inductive FieldStructEntry where
  | single (field : String)
  | alts (fields : List String)

/-- Embeds `BasicCalendarInstance.composeAllowedFields` (calendar.ts
lines 381-399): a fold over the structure entries whose accumulator — the
list of prefixes — starts from the *empty* list (`[] as string[][]`), so
the inner fold over the prefixes never produces anything. -/
def composeAllowedFields (fieldStruct : List FieldStructEntry) : List (List String) :=
  fieldStruct.foldl
    (fun result fields =>
      result.foldl
        (fun newEntry pre =>
          match fields with
          | .alts fs => newEntry ++ fs.map (fun newTail => pre ++ [newTail])
          | .single f => newEntry ++ [pre ++ [f]])
        [])
    []

/-- Embeds `Definitions.isGenericField` (src/src/Definitions.ts lines
147-150) together with the TypeScript narrowing that identifies the
matched enum member. -/
def toGenericField : String → Option Definitions.GenericField
  | "day" => some .day
  | "week" => some .week
  | "month" => some .month
  | "quarter" => some .quarter
  | "year" => some .year
  | "era" => some .era
  | _ => none

/-- Embeds the reduce inside `BasicCalendarInstance.createFieldValues`
(calendar.ts lines 444-457): walking a field list with an accumulator
`{result, current}`, a generic field name updates `current`, any other
name requires `Definitions.getField(fields, current)` to equal it. -/
def fieldListMatches (fields : Definitions.TemporalInstance)
    (fieldList : List String) : Bool :=
  (fieldList.foldl
    (fun (acc : Bool × Option Definitions.GenericField) (field : String) =>
      if acc.1 then
        match toGenericField field with
        | some g => (acc.1, some g)
        | none =>
            match acc.2 with
            | some cur => (Definitions.getField fields cur == some field, acc.2)
            | none => (false, acc.2)
      else acc)
    (true, none)).1

/-- Embeds `BasicCalendarInstance.createFieldValues` (calendar.ts lines
442-461).  In the source the non-empty branch computes the matching
field list into a local constant but ends without a `return` statement,
so the function returns `undefined` on every input; the empty branch
returns `undefined` explicitly. -/
def createFieldValues (fields : Definitions.TemporalInstance)
    (allowedFields : List (List String)) : Option (List (String × ℤ)) :=
  if allowedFields.length != 0 then
    let _fieldNames := allowedFields.find? (fieldListMatches fields)
    none
  else
    none

/-- Embeds `BasicCalendarInstance.createFieldDefinition` (calendar.ts
lines 470-474): when `createFieldValues` yields a record it calls
`calendar.getFieldInstanceDefinition`, which unconditionally throws
`Error("Method not implemented.")` (calendar.ts lines 702-704);
otherwise it returns undefined. -/
def createFieldDefinition (fields : Definitions.TemporalInstance)
    (allowedFields : List (List String)) : Except CalendarErr (Option Unit) :=
  match createFieldValues fields allowedFields with
  | some _ => .error (.jsError "Method not implemented.")
  | none => .ok none

/-- `DateInstance.baseFields` (calendar.ts lines 643-650). -/
def dateBaseFields : List (List String) :=
  composeAllowedFields
    [.single "year", .alts ["canonicalYear", "yearOfEra"],
     .single "day", .alts ["dayOfMonth", "dayOfYear"]]

/-- `YearAndMonthInstance.baseFields` (calendar.ts lines 670-676). -/
def yearAndMonthBaseFields : List (List String) :=
  composeAllowedFields
    [.single "year", .single "month", .alts ["monthOfYear"]]

/-- `YearInstance.baseFields` (calendar.ts lines 618-623). -/
def yearBaseFields : List (List String) :=
  composeAllowedFields
    [.single "year", .alts ["canonicalYear", "yearOfEra"]]

/-- Embeds the `DateInstance` constructor (calendar.ts lines 652-661):
compute the definition (whose exception would propagate) and the field
list, call `super` when both are defined, otherwise throw the
RangeError. -/
def mkDateInstance (fields : Definitions.TemporalInstance) :
    Except CalendarErr CalendarInstanceShape :=
  match createFieldDefinition fields dateBaseFields with
  | .error e => .error e
  | .ok defO =>
      match createFieldValues fields dateBaseFields, defO with
      | some fl, some _ => .ok (.date fl)
      | _, _ => .error (.rangeError "Could not create a year without proper year value")

/-- Embeds the `YearAndMonthInstance` constructor (calendar.ts lines
678-687). -/
def mkYearAndMonthInstance (fields : Definitions.TemporalInstance) :
    Except CalendarErr CalendarInstanceShape :=
  match createFieldDefinition fields yearAndMonthBaseFields with
  | .error e => .error e
  | .ok defO =>
      match createFieldValues fields yearAndMonthBaseFields, defO with
      | some fl, some _ => .ok (.yearAndMonth fl)
      | _, _ => .error (.rangeError "Could not create a year without proper year value")

/-- Embeds the `YearInstance` constructor (calendar.ts lines 626-635). -/
def mkYearInstance (fields : Definitions.TemporalInstance) :
    Except CalendarErr CalendarInstanceShape :=
  match createFieldDefinition fields yearBaseFields with
  | .error e => .error e
  | .ok defO =>
      match createFieldValues fields yearBaseFields, defO with
      | some fl, some _ => .ok (.year fl)
      | _, _ => .error (.rangeError "Could not create a year without proper year value")

/-- Embeds `FieldInstanceDeclaration` (calendar.ts lines 343-358) for the
declarations built inside `createInstance`, whose allowed fields are all
plain field-name strings; `instanceCtor` is the declaration's `instance`
constructor. -/
structure FieldInstanceDeclaration where
  baseField : String
  allowedFields : Option (List String)
  instanceCtor : Definitions.TemporalInstance → Except CalendarErr CalendarInstanceShape

/-- Embeds the local `hasField` helper of `createInstanceDeclaration`
(calendar.ts lines 820-830) applied to a string: the concrete field
resolved for the base field must equal the tested name. -/
def hasFieldStr (fields : Definitions.TemporalInstance)
    (baseField : Definitions.GenericField) (tested : String) : Bool :=
  Definitions.getField fields baseField == some tested

/-- Embeds `hasField` applied to a nested declaration object (calendar.ts
lines 823-829): each entry of its allowed fields (defaulting to the
declaration's own base field name) is tested with the *outer* `baseField`
(the recursion never switches to the inner declaration's base field).
All entries occurring in `createInstance`'s declarations are strings, so
only the string arm of the callback's conditional is exercised. -/
def hasFieldDecl (fields : Definitions.TemporalInstance)
    (baseField : Definitions.GenericField) (tested : FieldInstanceDeclaration) : Bool :=
  (tested.allowedFields.getD [tested.baseField]).any
    (fun allowed => hasFieldStr fields baseField allowed)

/-- Embeds the instantiator generated by `createInstanceDeclaration`
(calendar.ts lines 832-853): the declarations carrying an `instance`
(all of them here) are searched for the first matching one; its
constructor is invoked inside a `try` whose `catch` swallows the error,
after which control falls through to `throw new CalendarException`. -/
def instantiator (baseField : Definitions.GenericField)
    (allowedFields : List FieldInstanceDeclaration)
    (fields : Definitions.TemporalInstance) : Except CalendarErr CalendarInstanceShape :=
  match allowedFields.find? (fun fieldDef => hasFieldDecl fields baseField fieldDef) with
  | some declaration =>
      match declaration.instanceCtor fields with
      | .ok inst => .ok inst
      | .error _ => .error (.calendarException "Invalid instance definition")
  | none => .error (.calendarException "Invalid instance definition")

/-- The outer declarations of `createInstance`: base field, optional
nested declarations (absent for the plain-instance form of
`createInstanceDeclaration`, calendar.ts lines 855-859), and the
`instance` function. -/
structure OuterDeclaration where
  baseField : Definitions.GenericField
  allowedFields : Option (List FieldInstanceDeclaration)
  instanceFn : Definitions.TemporalInstance → Except CalendarErr CalendarInstanceShape

/-- The nested Date declaration built inside `createInstance`
(calendar.ts lines 900-903). -/
def dateDecl : FieldInstanceDeclaration :=
  { baseField := "day", allowedFields := some ["dayOfYear", "dayOfMonth"],
    instanceCtor := mkDateInstance }

/-- The nested YearAndMonth declaration (calendar.ts lines 904-907). -/
def yearMonthDecl : FieldInstanceDeclaration :=
  { baseField := "month", allowedFields := some ["monthOfYear"],
    instanceCtor := mkYearAndMonthInstance }

/-- Embeds `Calendar.createInstance` (calendar.ts lines 897-922): the
declaration list holds the generated year declaration with the nested
Date and YearAndMonth declarations, then the plain Year declaration
(which has no `allowedFields`).  The `find` callback tests
`(fields.allowedFields ?? []).some(field => Definitions.getField(source, fields.baseField))`
— its body ignores the iterated entry and is a truthiness test of the
resolved field.  The matched declaration's `instance` function is then
invoked with the source bag. -/
def createInstance (source : Definitions.TemporalInstance) :
    Except CalendarErr CalendarInstanceShape :=
  let decl1 : OuterDeclaration :=
    { baseField := .year, allowedFields := some [dateDecl, yearMonthDecl],
      instanceFn := instantiator .year [dateDecl, yearMonthDecl] }
  let decl2 : OuterDeclaration :=
    { baseField := .year, allowedFields := none,
      instanceFn := mkYearInstance }
  match [decl1, decl2].find? (fun decl =>
      (decl.allowedFields.getD []).any
        (fun _ => (Definitions.getField source decl.baseField).isSome)) with
  | some field => field.instanceFn source
  | none => .error (.calendarException "The calendar instance does not exist")

end Calendar

/-- C2.  The claim states that `createInstance({year: 1400, month: 1,
day: 1})` returns a DateInstance with `get("year") = 1400`,
`get("month") = 1` and the day resolved to `dayOfMonth`.  The bag does
resolve its day to `dayOfMonth`, but `createInstance` throws
`CalendarException("Invalid instance definition")`: the nested matching
keeps testing the *outer* base field `year` (which resolves to
`canonicalYear`) against the Date and YearAndMonth alternatives, so no
nested declaration ever matches. -/
theorem C2_createInstance_at_failing_input :
    Calendar.createInstance
        ⟨some 1, none, some 1, none, some 1400, none⟩
      = .error (.calendarException "Invalid instance definition") ∧
    Definitions.getField ⟨some 1, none, some 1, none, some 1400, none⟩ .day
      = some "dayOfMonth" := by
  exact ⟨rfl, rfl⟩

/-- Lookup in a string-keyed record, modelling JavaScript object key
access; `isSome` of the result models the `in` operator. -/
def lookupField {α : Type} (l : List (String × α)) (k : String) : Option α :=
  (l.find? (fun p => p.1 == k)).map (fun p => p.2)

/-- The object-spread update `{...obj, key: value}`: an existing key
keeps its position and is overwritten, a new key is appended. -/
def recordSet (l : List (String × ℤ)) (k : String) (v : ℤ) : List (String × ℤ) :=
  if (lookupField l k).isSome then
    l.map (fun p => if p.1 == k then (p.1, v) else p)
  else l ++ [(k, v)]

/-- An entry of a definition's `supportedFields` record: a plain
`FieldDefinition` or a `FieldDefinitionFunction` (with the field-name
argument fixed by the lookup key).  Only the `fieldName` and `range` of
the produced definition are consulted by the instance methods modelled
here, so the nested `supportedFields` of entries is cut off. -/
structure FieldDefinitionLeaf where
  fieldName : String
  range : IntRange

/-- A `FieldDefinition | FieldDefinitionFunction` union member
(src/unnamed/part_005's sibling temporal module, `FieldDefinition`). -/
inductive SupportedFieldEntry where
  | defn (d : FieldDefinitionLeaf)
  | func (f : Option ℤ → Except CalendarErr FieldDefinitionLeaf)

/-- The definition owned by a calendar instance: its field name, range
and supported-fields record. -/
structure FieldDefinition where
  fieldName : String
  range : IntRange
  supportedFields : List (String × SupportedFieldEntry)

/-- Embeds the state of `BasicCalendarInstance` (src/src/calendar.ts
lines 373-607) used by `get`, `range` and `set`: the owned field values
and the definition.  The calendar back-reference is not consulted before
the point where `set` hands its freshly built record to
`calendar.createInstance`, which is where the modelled `set` stops. -/
structure BasicCalendarInstance where
  fieldValues : List (String × ℤ)
  definition : FieldDefinition

namespace BasicCalendarInstance

/-- Embeds `get()` without argument (calendar.ts lines 546-549): the
value stored under the definition's own field name. -/
def get (inst : BasicCalendarInstance) : Option ℤ :=
  lookupField inst.fieldValues inst.definition.fieldName

/-- Embeds `range(fieldName)` for a supplied field name (calendar.ts
lines 576-593): the entry of `definition.supportedFields` under the
name; a function entry is invoked with `this.get()` and its definition's
range returned, a plain entry yields its range, a missing entry throws
`UnsupportedFieldException`. -/
def range (inst : BasicCalendarInstance) (fieldName : String) :
    Except CalendarErr IntRange :=
  match lookupField inst.definition.supportedFields fieldName with
  | some (.func f) => (f (get inst)).map (fun d => d.range)
  | some (.defn d) => .ok d.range
  | none => .error (.unsupportedFieldException fieldName)

/-- Embeds `set(fieldName, value)` (calendar.ts lines 595-605).  When the
field is supported and `range(fieldName).contains(new ComparableInteger(value))`
holds, the source evaluates `this.calendar.createInstance({...this.fieldValues, fieldName: value})`
— with the literal key `fieldName`, not the computed key `[fieldName]`;
the modelled function returns that freshly built record (the argument
`createInstance` receives).  Otherwise it throws `InvalidFieldValue`
with the interpolated message and the value; an unsupported field throws
`UnsupportedFieldException`. -/
def set (inst : BasicCalendarInstance) (fieldName : String) (value : ℤ) :
    Except CalendarErr (List (String × ℤ)) :=
  if (lookupField inst.definition.supportedFields fieldName).isSome then
    match range inst fieldName with
    | .ok r =>
        if r.contains cmpInt value then
          .ok (recordSet inst.fieldValues "fieldName" value)
        else
          .error (.invalidFieldValue
            s!"FIeld {fieldName} does not allowe value {value}" value)
    | .error e => .error e
  else .error (.unsupportedFieldException fieldName)

end BasicCalendarInstance

/-- A calendar instance whose day range is the closed `[1, 31]`, with the
day field supported, as in the spec's `set("day", 40)` scenario. -/
def dayInstance : BasicCalendarInstance :=
  { fieldValues := [("year", 2024), ("month", 1), ("day", 5)],
    definition :=
      { fieldName := "day",
        range := ValueRange.closedRange (some 1) (some 31),
        supportedFields :=
          [("day", .defn ⟨"day", ValueRange.closedRange (some 1) (some 31)⟩)] } }

/-- A calendar instance whose day range is the degenerate closed `[5, 5]`
— the only kind of range the buggy `contains` accepts — used to exhibit
the literal-key update of `set`'s success path. -/
def singletonDayInstance : BasicCalendarInstance :=
  { fieldValues := [("day", 5)],
    definition :=
      { fieldName := "day",
        range := ValueRange.closedRange (some 5) (some 5),
        supportedFields :=
          [("day", .defn ⟨"day", ValueRange.closedRange (some 5) (some 5)⟩)] } }

/-- C4.  The claim states `set(f, v)` raises InvalidFieldValue exactly
when `v` is outside `range(f)`, and otherwise returns a new instance
with field `f` set to `v`.  On an instance with day range `[1, 31]`,
`set("day", 5)` raises InvalidFieldValue even though `5` lies inside the
range (the inverted `contains` rejects it); `set("day", 40)` raises as
the scenario expects; and on the one kind of range `contains` accepts (a
degenerate `[5, 5]`), the success path builds the record with the
*literal* key `"fieldName"` instead of updating field `"day"`. -/
theorem C4_set_at_failing_input :
    BasicCalendarInstance.set dayInstance "day" 5
      = .error (.invalidFieldValue "FIeld day does not allowe value 5" 5) ∧
    containsSpec (ValueRange.closedRange (some 1) (some 31)) 5 = true ∧
    BasicCalendarInstance.set dayInstance "day" 40
      = .error (.invalidFieldValue "FIeld day does not allowe value 40" 40) ∧
    BasicCalendarInstance.set singletonDayInstance "day" 5
      = .ok [("day", 5), ("fieldName", 5)] := by
  exact ⟨rfl, by decide, rfl, rfl⟩
